import Mathlib

/-!
Verification development for the griffin repository (src/solar_app.py and
src/solar_pro.py). Python floats are modelled as rationals; pandas/numpy
series are modelled as Lean lists; a Python exception is modelled as
`Except.error` carrying the exception name.
-/

/-- One hourly weather sample: ambient temperature in degrees Celsius and
global horizontal irradiance in W per square metre (columns `temp` and `ghi`
of the weather dataframe in both source files). -/
structure WeatherSample where
  temp : ℚ
  ghi : ℚ
deriving Repr, DecidableEq

/-- Embedding of `simulate_pv` (src/solar_app.py lines 57-67), per sample:
`temp_coeff = -0.004`; `cell_temp = temp + 0.025 * ghi`;
`correction = 1 + temp_coeff * (cell_temp - 25)`;
`pv_out = capacity * (ghi / 1000) * pr * correction`, clipped below at 0
(`clip(lower=0)` is `max _ 0`). Decimal constants are written as exact
rationals: 0.004 = 4/1000, 0.025 = 25/1000. -/
def simulate_pv (s : WeatherSample) (capacity pr : ℚ) : ℚ :=
  let temp_coeff : ℚ := -(4 / 1000)
  let cell_temp := s.temp + 25 / 1000 * s.ghi
  let correction := 1 + temp_coeff * (cell_temp - 25)
  let pv_out := capacity * (s.ghi / 1000) * pr * correction
  max pv_out 0

/-- Embedding of `EngineeringModel.simulate_generation` (src/solar_pro.py
lines 76-81), per sample: `cell_temp = temp + 0.025 * ghi`;
`temp_loss = 1 + (-0.004) * (cell_temp - 25)`;
`gen_kw = capacity_kw * (ghi / 1000) * pr * temp_loss`, clipped below at 0. -/
def simulate_generation (s : WeatherSample) (capacity_kw pr : ℚ) : ℚ :=
  let cell_temp := s.temp + 25 / 1000 * s.ghi
  let temp_loss := 1 + (-(4 / 1000)) * (cell_temp - 25)
  let gen_kw := capacity_kw * (s.ghi / 1000) * pr * temp_loss
  max gen_kw 0

/-- The whole-series form of `simulate_pv`: the source applies the formula
columnwise over the weather dataframe. -/
def simulate_pv_series (ws : List WeatherSample) (capacity pr : ℚ) : List ℚ :=
  ws.map (fun s => simulate_pv s capacity pr)

/-- The whole-series form of `simulate_generation`. -/
def simulate_generation_series (ws : List WeatherSample) (capacity_kw pr : ℚ) : List ℚ :=
  ws.map (fun s => simulate_generation s capacity_kw pr)

/-- `np.tile(xs, k)`: k copies of xs concatenated in order. -/
def npTile (xs : List ℚ) (k : ℕ) : List ℚ :=
  (List.replicate k xs).flatten

/-- Embedding of the load-alignment logic of src/solar_app.py lines 93-102:
if fewer values than needed, `repeats = needed_len // len(load_vals) + 1` and
the tiled list is truncated; otherwise the first `needed_len` values are
taken. When `load_vals` is empty and the `<` branch is entered, the Python
integer floor division `needed_len // 0` raises ZeroDivisionError. -/
def alignLoadApp (load_vals : List ℚ) (needed_len : ℕ) : Except String (List ℚ) :=
  if load_vals.length < needed_len then
    if load_vals.length = 0 then Except.error "ZeroDivisionError"
    else
      let repeats := needed_len / load_vals.length + 1
      Except.ok ((npTile load_vals repeats).take needed_len)
  else Except.ok (load_vals.take needed_len)

/-- Embedding of the load-alignment logic of src/solar_pro.py lines 202-205:
if at least `req_len` values, take the first `req_len`; otherwise tile
`int(np.ceil(req_len / len(load_data)))` copies and truncate. The ceiling of
`req_len / m` for positive naturals is `(req_len + m - 1) / m`. When
`load_data` is empty the else branch divides by zero and raises. -/
def alignLoadPro (load_data : List ℚ) (req_len : ℕ) : Except String (List ℚ) :=
  if load_data.length ≥ req_len then Except.ok (load_data.take req_len)
  else
    if load_data.length = 0 then Except.error "ZeroDivisionError"
    else
      let reps := (req_len + load_data.length - 1) / load_data.length
      Except.ok ((npTile load_data reps).take req_len)

/-- Embedding of the surrounding upload handler of src/solar_app.py lines
88-106: the `try` body aligns the uploaded values; on any exception the
`except` branch shows an error message and then executes
`weather_df['load'] = 0`, which broadcasts the scalar 0 over all rows, i.e.
substitutes a constant zero load series of the weather length. -/
def handleUploadApp (load_vals : List ℚ) (needed_len : ℕ) : List ℚ :=
  match alignLoadApp load_vals needed_len with
  | Except.ok l => l
  | Except.error _ => List.replicate needed_len 0

/-- Embedding of the surrounding upload handler of src/solar_pro.py lines
190-208: the `try` body aligns the uploaded values and stores the merged
frame; on any exception the bare `except` shows an error message and stores
nothing, so no load series is produced. -/
def handleUploadPro (load_data : List ℚ) (req_len : ℕ) : Option (List ℚ) :=
  match alignLoadPro load_data req_len with
  | Except.ok l => some l
  | Except.error _ => none

/-- One iteration of the battery dispatch loop body of src/solar_app.py lines
123-138, for a given capacity, current state of charge and net load. Returns
the new `current_soc` and the recorded `battery_action[i]`. Python
`min(a, b, c)` is the minimum of the three arguments; `battery_cap * 0.5` is
`battery_cap * (1/2)`. -/
def dispatchStep (battery_cap current_soc net : ℚ) : ℚ × ℚ :=
  if net < 0 then
    let can_charge := battery_cap - current_soc
    let actual_charge := min (|net|) (min can_charge (battery_cap * (1 / 2)))
    (current_soc + actual_charge, -actual_charge)
  else if net > 0 then
    let can_discharge := current_soc
    let actual_discharge := min net (min can_discharge (battery_cap * (1 / 2)))
    (current_soc - actual_discharge, actual_discharge)
  else (current_soc, 0)

/-- The dispatch loop over the net-load series, threading `current_soc` and
recording per hour the end-of-hour soc (first component) and the battery
action (second component), in order. -/
def dispatchLoop (battery_cap : ℚ) : ℚ → List ℚ → List ℚ × List ℚ
  | _, [] => ([], [])
  | current_soc, net :: rest =>
    let step := dispatchStep battery_cap current_soc net
    let tail := dispatchLoop battery_cap step.1 rest
    (step.1 :: tail.1, step.2 :: tail.2)

/-- Embedding of src/solar_app.py lines 116-141: `soc` and `battery_action`
are initialised to all-zero lists of the series length; only when
`battery_cap > 0` does the loop run, starting from
`current_soc = battery_cap * 0.5`. Returns (soc column, battery column). -/
def runDispatch (battery_cap : ℚ) (net_load : List ℚ) : List ℚ × List ℚ :=
  if battery_cap > 0 then dispatchLoop battery_cap (battery_cap * (1 / 2)) net_load
  else (List.replicate net_load.length 0, List.replicate net_load.length 0)

/-- Embedding of src/solar_app.py line 142:
`grid_power = net_load - battery_power`, elementwise. -/
def grid_power (net_load battery : List ℚ) : List ℚ :=
  List.zipWith (fun a b => a - b) net_load battery

/-- The state of charge obtained after `i` iterations of the dispatch step
starting from `s`, reading net loads from the series (0 past its end, where
the step is the identity). -/
def socIter (battery_cap s : ℚ) (net : List ℚ) : ℕ → ℚ
  | 0 => s
  | i + 1 => (dispatchStep battery_cap (socIter battery_cap s net i) (net.getD i 0)).1

/-- The state of charge at the start of hour `i` when the loop runs, i.e.
starting from half the capacity. -/
def socStart (battery_cap : ℚ) (net : List ℚ) (i : ℕ) : ℚ :=
  socIter battery_cap (battery_cap * (1 / 2)) net i

/-- The first grouping lambda of src/solar_pro.py line 244,
`lambda x: abs(x[x < 0].sum())`: the absolute value of the sum of the
negative entries of one day of net load. -/
def surplusOf (hrs : List ℚ) : ℚ :=
  |(hrs.filter (fun x => x < 0)).sum|

/-- The second grouping lambda of src/solar_pro.py line 244,
`lambda x: x[x > 0].sum()`: the sum of the positive entries of one day of
net load. -/
def deficitOf (hrs : List ℚ) : ℚ :=
  (hrs.filter (fun x => x > 0)).sum

/-- A frame of hourly net load grouped into calendar days: each entry is one
day label (the date rendered as text) and that day's hourly net loads, in
order. This is what `df.set_index('time').resample('D')` partitions the
series into. -/
def DayFrame : Type := List (String × List ℚ)

/-- The grouped aggregation `resample('D').apply({'net_load': [f, g]})`
restricted to its values: one (surplus, deficit) pair per day, under
MultiIndex columns `(net_load, lambda_0)` and `(net_load, lambda_1)`. -/
def resampleApplyNetLoad (days : List (String × List ℚ)) : List (String × ℚ × ℚ) :=
  days.map (fun d => (d.1, surplusOf d.2, deficitOf d.2))

/-- Modelled pandas semantics of the attribute access
`...apply({'net_load': [lambda, lambda]})['net_load'].tolist()` in
src/solar_pro.py lines 243-244: selecting the level-0 label `net_load` of the
MultiIndex columns yields a pandas DataFrame whose columns are the two
generated lambda names. `pandas.DataFrame` has no method named `tolist`
(only `Series.tolist` exists), so attribute lookup falls back to column
lookup, finds no such column, and raises AttributeError. The call therefore
never returns row data. -/
def frameTolist (_rows : List (String × ℚ × ℚ)) : Except String (List (List ℚ)) :=
  Except.error "AttributeError: DataFrame object has no attribute tolist"

/-- Embedding of the daily-aggregate construction of src/solar_pro.py lines
243-245: the `pd.DataFrame(... .tolist(), columns=['surplus', 'deficit'],
index=...)` expression. The `.tolist()` step raises, so the whole expression
propagates the exception; the continuation (relabelling rows with the day
index) is recorded for completeness. -/
def tab3Daily (days : List (String × List ℚ)) : Except String (List (String × ℚ × ℚ)) :=
  (frameTolist (resampleApplyNetLoad days)).map
    (fun rows =>
      (days.zip rows).map (fun p => (p.1.1, p.2.getD 0 0, p.2.getD 1 0)))

/-- Modelled pandas semantics of src/solar_pro.py line 246,
`daily['effective'] = daily[['surplus', 'deficit']].min()`:
`DataFrame.min()` defaults to axis 0, the column-wise minimum, producing a
Series indexed by the column labels `surplus` and `deficit` (an empty column
yields NaN, modelled as `none`). Assigning that Series as a new column
aligns it on the daily frame's index, so the row of day `d` receives the
Series value at label `d` — `none` unless a day is literally labelled
`surplus` or `deficit`. -/
def effectiveColumn (daily : List (String × ℚ × ℚ)) : List (String × Option ℚ) :=
  let colMin : List (String × Option ℚ) :=
    [("surplus", (daily.map (fun d => d.2.1)).min?),
     ("deficit", (daily.map (fun d => d.2.2)).min?)]
  daily.map (fun d => (d.1, (colMin.lookup d.1).join))

/-- The pandas comparison `daily['effective'] > 1` on one entry: NaN
(modelled `none`) compares false. -/
def effGtOne : Option ℚ → Bool
  | none => false
  | some v => decide (v > 1)

/-- Linear-interpolation quantile at q = 0.9 of a list of values, the pandas
default for `Series.quantile(0.90)`: with the values sorted ascending as
`s_0 … s_(n-1)` and position `p = 0.9 * (n - 1)`, the result interpolates
between the entries at `floor p` and `floor p + 1`. -/
def quantile90 (xs : List ℚ) : ℚ :=
  let s := xs.mergeSort (fun a b => a ≤ b)
  let p : ℚ := (9 / 10) * ((s.length : ℚ) - 1)
  let lo : ℕ := (⌊p⌋).toNat
  let slo := s.getD lo 0
  let shi := s.getD (lo + 1) slo
  slo + (shi - slo) * (p - (lo : ℚ))

/-- The two outcomes of the tab3 storage advisor of src/solar_pro.py lines
249-262: the explicit warning that no storage is warranted (line 262), or a
numeric recommendation of power (kW) and energy (kWh). -/
inductive AdvisorOutput where
  | noStorage : AdvisorOutput
  | recommend (power_kw energy_kwh : ℚ) : AdvisorOutput
deriving Repr, DecidableEq

/-- Embedding of the whole tab3 storage advisor of src/solar_pro.py lines
242-262 as executed: build the daily aggregate frame (which raises inside
`.tolist()`), attach the `effective` column, keep days with
`effective > 1`, and either warn (no valid day) or recommend
`rec_cap = quantile(0.90) / 0.9` kWh and `rec_cap / 2` kW. -/
def tab3Advisor (days : List (String × List ℚ)) : Except String AdvisorOutput :=
  (tab3Daily days).map (fun daily =>
    let eff := effectiveColumn daily
    let valid := eff.filter (fun d => effGtOne d.2)
    if valid.isEmpty then AdvisorOutput.noStorage
    else
      let recCap := quantile90 (valid.filterMap (fun d => d.2)) / (9 / 10)
      AdvisorOutput.recommend (recCap / 2) recCap)

/-- C5: for every hourly weather sample and station configuration, the PV
model of both source files returns exactly
`max 0 (capacity * (ghi/1000) * pr * (1 + (-0.004) * ((temp + 0.025*ghi) - 25)))`;
in particular it returns 0 when irradiance is 0, and is never negative. -/
theorem c5_pv_model (s : WeatherSample) (capacity pr : ℚ) :
    simulate_pv s capacity pr =
      max (capacity * (s.ghi / 1000) * pr *
        (1 + (-(4 / 1000)) * ((s.temp + 25 / 1000 * s.ghi) - 25))) 0 ∧
    simulate_generation s capacity pr = simulate_pv s capacity pr ∧
    (s.ghi = 0 → simulate_pv s capacity pr = 0) ∧
    0 ≤ simulate_pv s capacity pr := by
  refine ⟨rfl, rfl, ?_, le_max_right _ _⟩
  intro h
  simp [simulate_pv, h]

/-- C6 counterexample: at ambient temperature 25 °C and irradiance
1000 W/m², capacity 100 kW and PR 0.82, the PV model returns 369/5 = 73.8,
not the 82.0 the claim asserts (the cell temperature is 50 °C, so the
correction factor is 0.9, not 1). -/
theorem c6_counterexample :
    simulate_pv ⟨25, 1000⟩ 100 (82 / 100) = 369 / 5 ∧ ((369 : ℚ) / 5) ≠ 82 := by
  constructor
  · norm_num [simulate_pv]
  · norm_num

/-- A 24-hour weather series with constant irradiance 1000 W/m² and constant
ambient temperature 25 °C. -/
def constDay24 : List WeatherSample := List.replicate 24 ⟨25, 1000⟩

/-- C6 as amended: for the constant 25 °C / 1000 W/m² 24-hour series with
capacity 100 kW and PR 0.82, both PV models yield 73.8 kW for every hour,
because the temperature correction factor equals 0.9 exactly there. -/
theorem c6_amended_constant_series :
    (∀ g ∈ simulate_pv_series constDay24 100 (82 / 100), g = 369 / 5) ∧
    (∀ g ∈ simulate_generation_series constDay24 100 (82 / 100), g = 369 / 5) ∧
    (1 + (-(4 / 1000) : ℚ) * ((25 + 25 / 1000 * 1000) - 25) = 9 / 10) ∧
    ((369 : ℚ) / 5 = 73.8) := by
  refine ⟨?_, ?_, by norm_num, by norm_num⟩ <;>
  · intro g hg
    simp only [simulate_pv_series, simulate_generation_series, constDay24,
      List.map_replicate, List.mem_replicate] at hg
    rw [hg.2]
    norm_num [simulate_pv, simulate_generation]

/-- C1: the daily aggregation of src/solar_pro.py lines 243-246. The two
grouping lambdas do compute surplus 5 and deficit 3 on the day
with net loads [-5, 3] (min 3), but the pipeline around them raises
AttributeError inside `['net_load'].tolist()` before any daily aggregate is
built; and even on the intended daily rows, the `effective` column produced
by `daily[['surplus','deficit']].min()` (axis 0 plus index alignment) is NaN,
not `min surplus deficit`. -/
theorem c1_daily_aggregation_bug :
    surplusOf [-5, 3] = 5 ∧ deficitOf [-5, 3] = 3 ∧
    min (surplusOf [-5, 3]) (deficitOf [-5, 3]) = 3 ∧
    tab3Daily [("2024-01-01", [-5, 3])] =
      Except.error "AttributeError: DataFrame object has no attribute tolist" ∧
    effectiveColumn [("2024-01-01", 5, 3)] = [("2024-01-01", none)] := by
  refine ⟨?_, ?_, ?_, rfl, ?_⟩
  · norm_num [surplusOf, List.filter]
  · norm_num [deficitOf, List.filter]
  · norm_num [surplusOf, deficitOf, List.filter]
  · decide

/-- C2: the storage recommendation of src/solar_pro.py lines 247-256 is
unreachable. On two days whose aggregates would be (10, 10) and (20, 20)
(each with effective storage 20 > 1, so the claim requires a numeric
recommendation), the advisor raises AttributeError instead. -/
theorem c2_storage_recommendation_bug :
    resampleApplyNetLoad [("day1", [-10, 10]), ("day2", [-20, 20])] =
      [("day1", 10, 10), ("day2", 20, 20)] ∧
    tab3Advisor [("day1", [-10, 10]), ("day2", [-20, 20])] =
      Except.error "AttributeError: DataFrame object has no attribute tolist" := by
  constructor
  · norm_num [resampleApplyNetLoad, surplusOf, deficitOf, List.filter]
  · rfl

/-- C9: the explicit no-storage warning of src/solar_pro.py line 262 is never
reached. On a day of all-zero net load (surplus 0, deficit 0, so every
day's effective storage is at most 1 and the claim requires the warning
result), the advisor raises AttributeError instead of returning
`AdvisorOutput.noStorage`. -/
theorem c9_no_storage_branch_unreachable :
    surplusOf [0, 0, 0] = 0 ∧ deficitOf [0, 0, 0] = 0 ∧
    tab3Advisor [("day1", [0, 0, 0])] =
      Except.error "AttributeError: DataFrame object has no attribute tolist" := by
  refine ⟨?_, ?_, rfl⟩
  · norm_num [surplusOf, List.filter]
  · norm_num [deficitOf, List.filter]

/-- C8 counterexample: on an empty raw load sequence with 3 required hours,
src/solar_app.py raises ZeroDivisionError inside its alignment arithmetic,
and its exception handler then substitutes the constant zero load series
[0, 0, 0] — the sizing pipeline continues on fabricated zeros, contradicting
the claim that a zero load series is never silently substituted. -/
theorem c8_counterexample :
    alignLoadApp [] 3 = Except.error "ZeroDivisionError" ∧
    handleUploadApp [] 3 = [0, 0, 0] := by
  constructor <;> rfl

/-- C8 as amended: on an empty raw sequence and a positive target length,
both variants raise an unguarded ZeroDivisionError (not a dedicated
InputError); solar_pro's handler produces no load series, while solar_app's
handler substitutes a constant zero load series of the target length. -/
theorem c8_amended_empty_load (n : ℕ) (hn : 1 ≤ n) :
    alignLoadApp [] n = Except.error "ZeroDivisionError" ∧
    alignLoadPro [] n = Except.error "ZeroDivisionError" ∧
    handleUploadApp [] n = List.replicate n 0 ∧
    handleUploadPro [] n = none := by
  have h0 : ¬ n = 0 := by omega
  refine ⟨?_, ?_, ?_, ?_⟩ <;>
    simp [alignLoadApp, alignLoadPro, handleUploadApp, handleUploadPro, h0,
      Nat.pos_of_ne_zero h0]

/-- C8 witness: the amended statement instantiated at target length 3. -/
theorem c8_amended_empty_load_witness :
    1 ≤ 3 ∧
    (alignLoadApp [] 3 = Except.error "ZeroDivisionError" ∧
     alignLoadPro [] 3 = Except.error "ZeroDivisionError" ∧
     handleUploadApp [] 3 = List.replicate 3 0 ∧
     handleUploadPro [] 3 = none) :=
  ⟨by norm_num, c8_amended_empty_load 3 (by norm_num)⟩

/-- The soc column of the dispatch loop has one entry per hour. -/
lemma dispatchLoop_length_fst (battery_cap s : ℚ) (net : List ℚ) :
    (dispatchLoop battery_cap s net).1.length = net.length := by
  induction net generalizing s with
  | nil => rfl
  | cons x rest ih => simp [dispatchLoop, ih]

/-- The battery column of the dispatch loop has one entry per hour. -/
lemma dispatchLoop_length_snd (battery_cap s : ℚ) (net : List ℚ) :
    (dispatchLoop battery_cap s net).2.length = net.length := by
  induction net generalizing s with
  | nil => rfl
  | cons x rest ih => simp [dispatchLoop, ih]

/-- Shifting the iterated state of charge across the head of the series. -/
lemma socIter_cons (battery_cap s x : ℚ) (rest : List ℚ) (i : ℕ) :
    socIter battery_cap s (x :: rest) (i + 1) =
      socIter battery_cap (dispatchStep battery_cap s x).1 rest i := by
  induction i with
  | zero => rfl
  | succ i ih =>
    have h1 : socIter battery_cap s (x :: rest) (i + 1 + 1) =
        (dispatchStep battery_cap (socIter battery_cap s (x :: rest) (i + 1))
          ((x :: rest).getD (i + 1) 0)).1 := rfl
    have h2 : socIter battery_cap (dispatchStep battery_cap s x).1 rest (i + 1) =
        (dispatchStep battery_cap
          (socIter battery_cap (dispatchStep battery_cap s x).1 rest i)
          (rest.getD i 0)).1 := rfl
    rw [h1, h2, ih, List.getD_cons_succ]

/-- The dispatch loop records, at hour `i`, exactly the battery action of the
step taken from the iterated state of charge, and the state of charge after
that step. -/
lemma dispatchLoop_getElem (battery_cap s : ℚ) (net : List ℚ) (i : ℕ)
    (hi : i < net.length) :
    (dispatchLoop battery_cap s net).2[i]? =
      some (dispatchStep battery_cap (socIter battery_cap s net i) (net.getD i 0)).2 ∧
    (dispatchLoop battery_cap s net).1[i]? =
      some (socIter battery_cap s net (i + 1)) := by
  induction net generalizing s i with
  | nil => simp at hi
  | cons x rest ih =>
    cases i with
    | zero => constructor <;> simp [dispatchLoop, socIter]
    | succ i =>
      have hi' : i < rest.length := by simpa using hi
      have h := ih (dispatchStep battery_cap s x).1 i hi'
      constructor
      · simp only [dispatchLoop, List.getElem?_cons_succ, List.getD_cons_succ]
        rw [h.1, socIter_cons]
      · simp only [dispatchLoop, List.getElem?_cons_succ]
        rw [h.2, socIter_cons]

/-- Branch equation of `dispatchStep` for a negative net load (charging). -/
lemma dispatchStep_neg (battery_cap s x : ℚ) (h : x < 0) :
    dispatchStep battery_cap s x =
      (s + min (|x|) (min (battery_cap - s) (battery_cap * (1 / 2))),
       -(min (|x|) (min (battery_cap - s) (battery_cap * (1 / 2))))) := by
  unfold dispatchStep
  rw [if_pos h]

/-- Branch equation of `dispatchStep` for a positive net load (discharging). -/
lemma dispatchStep_pos (battery_cap s x : ℚ) (h : 0 < x) :
    dispatchStep battery_cap s x =
      (s - min x (min s (battery_cap * (1 / 2))),
       min x (min s (battery_cap * (1 / 2)))) := by
  unfold dispatchStep
  rw [if_neg (not_lt.mpr (le_of_lt h)), if_pos h]

/-- Branch equation of `dispatchStep` for zero net load (no action). -/
lemma dispatchStep_zero (battery_cap s : ℚ) :
    dispatchStep battery_cap s 0 = (s, 0) := by
  unfold dispatchStep
  rw [if_neg (lt_irrefl 0), if_neg (lt_irrefl 0)]

/-- One dispatch step keeps the state of charge inside [0, capacity], and its
recorded battery action lies between 0 and the hour's net load with matching
direction and magnitude at most the net load's. -/
lemma dispatchStep_bounds (battery_cap s x : ℚ) (hC : 0 ≤ battery_cap)
    (h0 : 0 ≤ s) (h1 : s ≤ battery_cap) :
    0 ≤ (dispatchStep battery_cap s x).1 ∧
    (dispatchStep battery_cap s x).1 ≤ battery_cap ∧
    (x < 0 → x ≤ (dispatchStep battery_cap s x).2 ∧ (dispatchStep battery_cap s x).2 ≤ 0) ∧
    (0 < x → 0 ≤ (dispatchStep battery_cap s x).2 ∧ (dispatchStep battery_cap s x).2 ≤ x) ∧
    (x = 0 → (dispatchStep battery_cap s x).2 = 0) ∧
    |(dispatchStep battery_cap s x).2| ≤ |x| := by
  rcases lt_trichotomy x 0 with hx | hx | hx
  · have he := dispatchStep_neg battery_cap s x hx
    have habs : |x| = -x := abs_of_neg hx
    set c := min (|x|) (min (battery_cap - s) (battery_cap * (1 / 2))) with hc
    have hc0 : 0 ≤ c := le_min (abs_nonneg x) (le_min (by linarith) (by linarith))
    have hcs : c ≤ battery_cap - s := le_trans (min_le_right _ _) (min_le_left _ _)
    have hcx : c ≤ |x| := min_le_left _ _
    rw [he]
    refine ⟨?_, ?_, fun _ => ⟨?_, ?_⟩, fun hp => absurd hp (by linarith),
      fun hz => absurd hz (by linarith), ?_⟩
    · show 0 ≤ s + c
      linarith
    · show s + c ≤ battery_cap
      linarith
    · show x ≤ -c
      linarith
    · show -c ≤ 0
      linarith
    · show |(-c)| ≤ |x|
      rw [abs_neg, abs_of_nonneg hc0]
      exact hcx
  · subst hx
    rw [dispatchStep_zero]
    exact ⟨h0, h1, fun h => absurd h (lt_irrefl 0), fun h => absurd h (lt_irrefl 0),
      fun _ => rfl, by simp⟩
  · have he := dispatchStep_pos battery_cap s x hx
    have habs : |x| = x := abs_of_pos hx
    set d := min x (min s (battery_cap * (1 / 2))) with hd
    have hd0 : 0 ≤ d := le_min (le_of_lt hx) (le_min h0 (by linarith))
    have hds : d ≤ s := le_trans (min_le_right _ _) (min_le_left _ _)
    have hdx : d ≤ x := min_le_left _ _
    rw [he]
    refine ⟨?_, ?_, fun hn => absurd hn (by linarith), fun _ => ⟨?_, ?_⟩,
      fun hz => absurd hz (by linarith), ?_⟩
    · show 0 ≤ s - d
      linarith
    · show s - d ≤ battery_cap
      linarith
    · show (0 : ℚ) ≤ d
      exact hd0
    · show d ≤ x
      exact hdx
    · show |d| ≤ |x|
      rw [abs_of_nonneg hd0, habs]
      exact hdx

/-- The iterated state of charge stays inside [0, capacity]. -/
lemma socIter_bounds (battery_cap s : ℚ) (net : List ℚ) (hC : 0 ≤ battery_cap)
    (h0 : 0 ≤ s) (h1 : s ≤ battery_cap) (i : ℕ) :
    0 ≤ socIter battery_cap s net i ∧ socIter battery_cap s net i ≤ battery_cap := by
  induction i with
  | zero => exact ⟨h0, h1⟩
  | succ i ih =>
    have h := dispatchStep_bounds battery_cap (socIter battery_cap s net i)
      (net.getD i 0) hC ih.1 ih.2
    exact ⟨h.1, h.2.1⟩

/-- Every recorded state of charge of the dispatch loop lies in [0, capacity]
when the starting state does. -/
lemma dispatchLoop_soc_mem (battery_cap : ℚ) (hC : 0 ≤ battery_cap) :
    ∀ (s : ℚ) (net : List ℚ), 0 ≤ s → s ≤ battery_cap →
      ∀ x ∈ (dispatchLoop battery_cap s net).1, 0 ≤ x ∧ x ≤ battery_cap := by
  intro s net
  induction net generalizing s with
  | nil => intro _ _ x hx; simp [dispatchLoop] at hx
  | cons y rest ih =>
    intro h0 h1 x hx
    have hstep := dispatchStep_bounds battery_cap s y hC h0 h1
    simp only [dispatchLoop, List.mem_cons] at hx
    rcases hx with h | h
    · exact h ▸ ⟨hstep.1, hstep.2.1⟩
    · exact ih (dispatchStep battery_cap s y).1 hstep.1 hstep.2.1 x h

/-- Pointwise description of the elementwise grid power subtraction. -/
lemma zipWith_sub_getElem (net bats : List ℚ) (i : ℕ) (hi : i < net.length)
    (hl : bats.length = net.length) :
    (List.zipWith (fun a b => a - b) net bats)[i]? =
      some (net.getD i 0 - bats.getD i 0) := by
  induction net generalizing bats i with
  | nil => simp at hi
  | cons x rest ih =>
    cases bats with
    | nil => simp at hl
    | cons y rbats =>
      cases i with
      | zero => simp
      | succ i =>
        simp only [List.zipWith_cons_cons, List.getElem?_cons_succ, List.getD_cons_succ]
        exact ih rbats i (by simpa using hi) (by simpa using hl)

/-- C4: for every battery capacity at least 0 and every net-load series,
every recorded state of charge lies in [0, capacity] — with capacity 0 the
loop is skipped and the recorded column is identically 0. -/
theorem c4_soc_invariant (battery_cap : ℚ) (net : List ℚ) (hC : 0 ≤ battery_cap) :
    ∀ x ∈ (runDispatch battery_cap net).1, 0 ≤ x ∧ x ≤ battery_cap := by
  unfold runDispatch
  split_ifs with hpos
  · exact dispatchLoop_soc_mem battery_cap hC (battery_cap * (1 / 2)) net
      (by linarith) (by linarith)
  · intro x hx
    have hx' : x ∈ List.replicate net.length (0 : ℚ) := hx
    rw [List.eq_of_mem_replicate hx']
    exact ⟨le_refl 0, hC⟩

/-- C4 witness: capacity 5 with net loads [-3, 2] records the states of
charge [5, 3]; the invariant is applied at the recorded value 5. -/
theorem c4_soc_invariant_witness :
    (0 : ℚ) ≤ 5 ∧ (5 : ℚ) ∈ (runDispatch 5 [-3, 2]).1 ∧
    (0 ≤ (5 : ℚ) ∧ (5 : ℚ) ≤ 5) :=
  ⟨by norm_num, by norm_num [runDispatch, dispatchLoop, dispatchStep],
   c4_soc_invariant 5 [-3, 2] (by norm_num) 5
     (by norm_num [runDispatch, dispatchLoop, dispatchStep])⟩

/-- C3: the dispatch simulator starts from half capacity and, at each hour in
order, records the charging or discharging action given by the clamped min
formulas, records the updated state of charge, is skipped when the capacity
is 0 (battery power identically 0), and grid power is net load minus battery
power. -/
theorem c3_dispatch_semantics (battery_cap : ℚ) (net : List ℚ) (i : ℕ)
    (hC : 0 ≤ battery_cap) (hi : i < net.length) :
    (runDispatch battery_cap net).1.length = net.length ∧
    (runDispatch battery_cap net).2.length = net.length ∧
    (battery_cap = 0 → (runDispatch battery_cap net).2[i]? = some 0) ∧
    (0 < battery_cap →
      (runDispatch battery_cap net).2[i]? =
        some (dispatchStep battery_cap (socStart battery_cap net i) (net.getD i 0)).2 ∧
      (runDispatch battery_cap net).1[i]? = some (socStart battery_cap net (i + 1))) ∧
    socStart battery_cap net 0 = battery_cap * (1 / 2) ∧
    (net.getD i 0 < 0 →
      (dispatchStep battery_cap (socStart battery_cap net i) (net.getD i 0)).2 =
        -(min (|net.getD i 0|)
            (min (battery_cap - socStart battery_cap net i) (battery_cap * (1 / 2))))) ∧
    (0 < net.getD i 0 →
      (dispatchStep battery_cap (socStart battery_cap net i) (net.getD i 0)).2 =
        min (net.getD i 0) (min (socStart battery_cap net i) (battery_cap * (1 / 2)))) ∧
    (net.getD i 0 = 0 →
      (dispatchStep battery_cap (socStart battery_cap net i) (net.getD i 0)).2 = 0) ∧
    (grid_power net (runDispatch battery_cap net).2)[i]? =
      some (net.getD i 0 - (runDispatch battery_cap net).2.getD i 0) := by
  have hlen1 : (runDispatch battery_cap net).1.length = net.length := by
    unfold runDispatch
    split_ifs
    · exact dispatchLoop_length_fst _ _ _
    · exact List.length_replicate _ _
  have hlen2 : (runDispatch battery_cap net).2.length = net.length := by
    unfold runDispatch
    split_ifs
    · exact dispatchLoop_length_snd _ _ _
    · exact List.length_replicate _ _
  refine ⟨hlen1, hlen2, ?_, ?_, rfl, ?_, ?_, ?_, ?_⟩
  · intro h0
    have hz : runDispatch battery_cap net =
        (List.replicate net.length 0, List.replicate net.length 0) := by
      unfold runDispatch
      rw [if_neg (by rw [h0]; exact lt_irrefl 0)]
    rw [hz]
    simp [List.getElem?_replicate, hi]
  · intro hpos
    have hrun : runDispatch battery_cap net =
        dispatchLoop battery_cap (battery_cap * (1 / 2)) net := by
      unfold runDispatch
      rw [if_pos hpos]
    rw [hrun]
    exact dispatchLoop_getElem battery_cap (battery_cap * (1 / 2)) net i hi
  · intro hneg
    rw [dispatchStep_neg _ _ _ hneg]
  · intro hpos
    rw [dispatchStep_pos _ _ _ hpos]
  · intro hz
    rw [hz, dispatchStep_zero]
  · exact zipWith_sub_getElem net _ i hi hlen2

/-- C3 witness: the characterization instantiated at capacity 100, net loads
[-200, 200, 200] and hour 1 — the worked dispatch example of the series. -/
theorem c3_dispatch_semantics_witness :
    (0 : ℚ) ≤ 100 ∧ 1 < ([-200, 200, 200] : List ℚ).length ∧
    ((runDispatch 100 [-200, 200, 200]).1.length =
        ([-200, 200, 200] : List ℚ).length ∧
     (runDispatch 100 [-200, 200, 200]).2.length =
        ([-200, 200, 200] : List ℚ).length ∧
     ((100 : ℚ) = 0 → (runDispatch 100 [-200, 200, 200]).2[1]? = some 0) ∧
     ((0 : ℚ) < 100 →
       (runDispatch 100 [-200, 200, 200]).2[1]? =
         some (dispatchStep 100 (socStart 100 [-200, 200, 200] 1)
           (([-200, 200, 200] : List ℚ).getD 1 0)).2 ∧
       (runDispatch 100 [-200, 200, 200]).1[1]? =
         some (socStart 100 [-200, 200, 200] (1 + 1))) ∧
     socStart 100 [-200, 200, 200] 0 = 100 * (1 / 2) ∧
     (([-200, 200, 200] : List ℚ).getD 1 0 < 0 →
       (dispatchStep 100 (socStart 100 [-200, 200, 200] 1)
           (([-200, 200, 200] : List ℚ).getD 1 0)).2 =
         -(min (|([-200, 200, 200] : List ℚ).getD 1 0|)
             (min (100 - socStart 100 [-200, 200, 200] 1) (100 * (1 / 2))))) ∧
     (0 < ([-200, 200, 200] : List ℚ).getD 1 0 →
       (dispatchStep 100 (socStart 100 [-200, 200, 200] 1)
           (([-200, 200, 200] : List ℚ).getD 1 0)).2 =
         min (([-200, 200, 200] : List ℚ).getD 1 0)
           (min (socStart 100 [-200, 200, 200] 1) (100 * (1 / 2)))) ∧
     (([-200, 200, 200] : List ℚ).getD 1 0 = 0 →
       (dispatchStep 100 (socStart 100 [-200, 200, 200] 1)
           (([-200, 200, 200] : List ℚ).getD 1 0)).2 = 0) ∧
     (grid_power [-200, 200, 200] (runDispatch 100 [-200, 200, 200]).2)[1]? =
       some (([-200, 200, 200] : List ℚ).getD 1 0 -
         (runDispatch 100 [-200, 200, 200]).2.getD 1 0)) :=
  ⟨by norm_num, by norm_num,
   c3_dispatch_semantics 100 [-200, 200, 200] 1 (by norm_num) (by norm_num)⟩

/-- C10: with positive capacity, each hour's recorded battery power has the
direction of that hour's net load (zero on zero net load), magnitude at most
the net load's, and the derived grid power lies between 0 and the net load
inclusive: the battery never charges from grid imports and never discharges
to export. -/
theorem c10_battery_direction (battery_cap : ℚ) (net : List ℚ) (i : ℕ)
    (hC : 0 < battery_cap) (hi : i < net.length) :
    (net.getD i 0 < 0 →
      net.getD i 0 ≤ (runDispatch battery_cap net).2.getD i 0 ∧
      (runDispatch battery_cap net).2.getD i 0 ≤ 0) ∧
    (0 < net.getD i 0 →
      0 ≤ (runDispatch battery_cap net).2.getD i 0 ∧
      (runDispatch battery_cap net).2.getD i 0 ≤ net.getD i 0) ∧
    (net.getD i 0 = 0 → (runDispatch battery_cap net).2.getD i 0 = 0) ∧
    |(runDispatch battery_cap net).2.getD i 0| ≤ |net.getD i 0| ∧
    (grid_power net (runDispatch battery_cap net).2).getD i 0 =
      net.getD i 0 - (runDispatch battery_cap net).2.getD i 0 ∧
    min 0 (net.getD i 0) ≤
      net.getD i 0 - (runDispatch battery_cap net).2.getD i 0 ∧
    net.getD i 0 - (runDispatch battery_cap net).2.getD i 0 ≤
      max 0 (net.getD i 0) := by
  have hrun : runDispatch battery_cap net =
      dispatchLoop battery_cap (battery_cap * (1 / 2)) net := by
    unfold runDispatch
    rw [if_pos hC]
  have hlen2 : (runDispatch battery_cap net).2.length = net.length := by
    rw [hrun]
    exact dispatchLoop_length_snd _ _ _
  have hget := (dispatchLoop_getElem battery_cap (battery_cap * (1 / 2)) net i hi).1
  have hb : (runDispatch battery_cap net).2.getD i 0 =
      (dispatchStep battery_cap (socStart battery_cap net i) (net.getD i 0)).2 := by
    rw [List.getD_eq_getElem?_getD, hrun, hget]
    rfl
  have hsoc := socIter_bounds battery_cap (battery_cap * (1 / 2)) net (le_of_lt hC)
    (by linarith) (by linarith) i
  have hstep := dispatchStep_bounds battery_cap (socStart battery_cap net i)
    (net.getD i 0) (le_of_lt hC) hsoc.1 hsoc.2
  have hgrid : (grid_power net (runDispatch battery_cap net).2).getD i 0 =
      net.getD i 0 - (runDispatch battery_cap net).2.getD i 0 := by
    have hz := zipWith_sub_getElem net (runDispatch battery_cap net).2 i hi hlen2
    rw [List.getD_eq_getElem?_getD]
    show (List.zipWith (fun a b => a - b) net
      (runDispatch battery_cap net).2)[i]?.getD 0 = _
    rw [hz]
    rfl
  refine ⟨?_, ?_, ?_, ?_, hgrid, ?_, ?_⟩
  · rw [hb]
    exact hstep.2.2.1
  · rw [hb]
    exact hstep.2.2.2.1
  · rw [hb]
    exact hstep.2.2.2.2.1
  · rw [hb]
    exact hstep.2.2.2.2.2
  · rw [hb]
    rcases lt_trichotomy (net.getD i 0) 0 with h | h | h
    · have hbb := hstep.2.2.1 h
      rw [min_eq_right (le_of_lt h)]
      linarith [hbb.1, hbb.2]
    · rw [hstep.2.2.2.2.1 h, h]
      norm_num
    · have hbb := hstep.2.2.2.1 h
      rw [min_eq_left (le_of_lt h)]
      linarith [hbb.2]
  · rw [hb]
    rcases lt_trichotomy (net.getD i 0) 0 with h | h | h
    · have hbb := hstep.2.2.1 h
      rw [max_eq_left (le_of_lt h)]
      linarith [hbb.1]
    · rw [hstep.2.2.2.2.1 h, h]
      norm_num
    · have hbb := hstep.2.2.2.1 h
      rw [max_eq_right (le_of_lt h)]
      linarith [hbb.1]

/-- C10 witness: the direction bounds instantiated at capacity 10, net loads
[-5, 3] and hour 0. -/
theorem c10_battery_direction_witness :
    (0 : ℚ) < 10 ∧ 0 < ([-5, 3] : List ℚ).length ∧
    ((([-5, 3] : List ℚ).getD 0 0 < 0 →
      ([-5, 3] : List ℚ).getD 0 0 ≤ (runDispatch 10 [-5, 3]).2.getD 0 0 ∧
      (runDispatch 10 [-5, 3]).2.getD 0 0 ≤ 0) ∧
    (0 < ([-5, 3] : List ℚ).getD 0 0 →
      0 ≤ (runDispatch 10 [-5, 3]).2.getD 0 0 ∧
      (runDispatch 10 [-5, 3]).2.getD 0 0 ≤ ([-5, 3] : List ℚ).getD 0 0) ∧
    (([-5, 3] : List ℚ).getD 0 0 = 0 → (runDispatch 10 [-5, 3]).2.getD 0 0 = 0) ∧
    |(runDispatch 10 [-5, 3]).2.getD 0 0| ≤ |([-5, 3] : List ℚ).getD 0 0| ∧
    (grid_power [-5, 3] (runDispatch 10 [-5, 3]).2).getD 0 0 =
      ([-5, 3] : List ℚ).getD 0 0 - (runDispatch 10 [-5, 3]).2.getD 0 0 ∧
    min 0 (([-5, 3] : List ℚ).getD 0 0) ≤
      ([-5, 3] : List ℚ).getD 0 0 - (runDispatch 10 [-5, 3]).2.getD 0 0 ∧
    ([-5, 3] : List ℚ).getD 0 0 - (runDispatch 10 [-5, 3]).2.getD 0 0 ≤
      max 0 (([-5, 3] : List ℚ).getD 0 0)) :=
  ⟨by norm_num, by norm_num,
   c10_battery_direction 10 [-5, 3] 0 (by norm_num) (by norm_num)⟩

/-- Tiling one more copy prepends the sequence. -/
lemma npTile_succ (xs : List ℚ) (k : ℕ) : npTile xs (k + 1) = xs ++ npTile xs k := by
  simp [npTile, List.replicate_succ]

/-- A tiling of `k` copies has `k` times the length. -/
lemma npTile_length (xs : List ℚ) (k : ℕ) : (npTile xs k).length = k * xs.length := by
  induction k with
  | zero => simp [npTile]
  | succ k ih =>
    rw [npTile_succ, List.length_append, ih]
    ring

/-- Inside the tiled range, the tiling repeats the sequence cyclically. -/
lemma npTile_getElem (xs : List ℚ) (k i : ℕ) (hm : xs.length ≠ 0)
    (hik : i < k * xs.length) :
    (npTile xs k)[i]? = xs[i % xs.length]? := by
  induction k generalizing i with
  | zero => omega
  | succ k ih =>
    rw [npTile_succ, List.getElem?_append]
    by_cases h : i < xs.length
    · rw [if_pos h, Nat.mod_eq_of_lt h]
    · push_neg at h
      rw [if_neg (not_lt.mpr h)]
      have hs : (k + 1) * xs.length = k * xs.length + xs.length :=
        Nat.succ_mul k xs.length
      rw [ih (i - xs.length) (by omega), ← Nat.mod_eq_sub_mod h]

/-- Truncating a tiling that covers `n` entries gives an `n`-entry cyclic
repetition of the sequence. -/
lemma tile_take_spec (raw : List ℚ) (n k : ℕ) (hm : raw.length ≠ 0)
    (hk : n ≤ k * raw.length) :
    ((npTile raw k).take n).length = n ∧
    ∀ i, i < n → ((npTile raw k).take n)[i]? = raw[i % raw.length]? := by
  constructor
  · rw [List.length_take, npTile_length]
    exact min_eq_left hk
  · intro i hi
    rw [List.getElem?_take, if_pos hi]
    exact npTile_getElem raw k i hm (lt_of_lt_of_le hi hk)

/-- Two lists of the same length with the same optional entries below that
length are equal. -/
lemma eq_of_spec (a b : List ℚ) (n : ℕ) (ha : a.length = n) (hb : b.length = n)
    (hp : ∀ i, i < n → a[i]? = b[i]?) : a = b := by
  apply List.ext_getElem?
  intro j
  by_cases hj : j < n
  · exact hp j hj
  · have h1 : a.length ≤ j := by omega
    have h2 : b.length ≤ j := by omega
    rw [List.getElem?_eq_none h1, List.getElem?_eq_none h2]

/-- C7: for a nonempty raw load sequence and a positive target length, both
load aligners succeed with the same series of exactly the target length whose
entry at every index `i` is the raw entry at `i` modulo the raw length —
truncation when the raw sequence is long enough, cyclic tiling in original
order otherwise. -/
theorem c7_load_aligner (raw : List ℚ) (n : ℕ) (hm : 1 ≤ raw.length) (hn : 1 ≤ n) :
    ∃ out, alignLoadApp raw n = Except.ok out ∧ alignLoadPro raw n = Except.ok out ∧
      out.length = n ∧ ∀ i, i < n → out[i]? = raw[i % raw.length]? := by
  by_cases hc : raw.length < n
  · have hm0 : raw.length ≠ 0 := by omega
    have hnA : n ≤ (n / raw.length + 1) * raw.length := by
      have hdm := Nat.div_add_mod n raw.length
      have hmod : n % raw.length < raw.length := Nat.mod_lt _ (by omega)
      have hmul : (n / raw.length + 1) * raw.length =
          raw.length * (n / raw.length) + raw.length := by ring
      omega
    have hnP : n ≤ ((n + raw.length - 1) / raw.length) * raw.length := by
      have hdm := Nat.div_add_mod (n + raw.length - 1) raw.length
      have hmod : (n + raw.length - 1) % raw.length < raw.length :=
        Nat.mod_lt _ (by omega)
      have hmul : ((n + raw.length - 1) / raw.length) * raw.length =
          raw.length * ((n + raw.length - 1) / raw.length) := by ring
      omega
    obtain ⟨hAl, hAp⟩ := tile_take_spec raw n (n / raw.length + 1) hm0 hnA
    obtain ⟨hPl, hPp⟩ := tile_take_spec raw n ((n + raw.length - 1) / raw.length) hm0 hnP
    have heq : (npTile raw ((n + raw.length - 1) / raw.length)).take n =
        (npTile raw (n / raw.length + 1)).take n :=
      eq_of_spec _ _ n hPl hAl (fun i hi => (hPp i hi).trans (hAp i hi).symm)
    refine ⟨(npTile raw (n / raw.length + 1)).take n, ?_, ?_, hAl, hAp⟩
    · unfold alignLoadApp
      rw [if_pos hc, if_neg hm0]
    · unfold alignLoadPro
      rw [if_neg (not_le.mpr hc), if_neg hm0]
      show Except.ok ((npTile raw ((n + raw.length - 1) / raw.length)).take n) = _
      rw [heq]
  · have hle : n ≤ raw.length := not_lt.mp hc
    refine ⟨raw.take n, ?_, ?_, ?_, ?_⟩
    · unfold alignLoadApp
      rw [if_neg hc]
    · unfold alignLoadPro
      rw [if_pos hle]
    · rw [List.length_take]
      exact min_eq_left hle
    · intro i hi
      rw [List.getElem?_take, if_pos hi, Nat.mod_eq_of_lt (by omega)]

/-- C7 witness: the aligner characterization instantiated at the raw sequence
[10, 20, 30] and target length 7, together with the resulting literal series. -/
theorem c7_load_aligner_witness :
    1 ≤ ([10, 20, 30] : List ℚ).length ∧ 1 ≤ 7 ∧
    (∃ out, alignLoadApp [10, 20, 30] 7 = Except.ok out ∧
      alignLoadPro [10, 20, 30] 7 = Except.ok out ∧
      out.length = 7 ∧
      ∀ i, i < 7 →
        out[i]? = ([10, 20, 30] : List ℚ)[i % ([10, 20, 30] : List ℚ).length]?) ∧
    alignLoadApp [10, 20, 30] 7 = Except.ok [10, 20, 30, 10, 20, 30, 10] ∧
    alignLoadApp [10, 20, 30] 3 = Except.ok [10, 20, 30] ∧
    alignLoadApp [10, 20, 30] 2 = Except.ok [10, 20] :=
  ⟨by norm_num, by norm_num,
   c7_load_aligner [10, 20, 30] 7 (by norm_num) (by norm_num),
   rfl, rfl, rfl⟩
